import Mathlib

/-
  Verification development for the Function-parser repository
  (src/parser.h, src/parser.cpp, src/main.cpp).

  The C++ core is shallowly embedded below:
  * `double` is modelled exactly by `CDouble`, an unnormalized fraction
    (integer numerator and denominator with the naive field operations).
    Every arithmetic step the scanner and evaluator perform is exact at
    the rational level; `CDouble.toRat` gives the numeric meaning.
  * `std::complex<double>` is modelled by `CComplex := CDouble × CDouble`
    with the textbook complex operations used by `std::complex`.
  * `const char*` buffers are modelled by `List Char` together with
    `getc`, which returns the NUL character `'\x00'` past the end of the
    list, mirroring the terminator of `std::string::c_str()`.
  * `size_t` subtraction that may wrap is modelled by `sub64` (explicit
    arithmetic modulo 2^64).
  * thrown `FuncParseExcept` exceptions are modelled by `Except`; since
    the C++ parser mutates member state (`m_usedVariables`,
    `m_supportedPrecision`) in place before a throw, errors carry the
    parser state at the moment of the throw.
  * the mutually recursive scanning procedures are given an explicit
    fuel argument; `Parse` supplies fuel that is ample for every input
    (each unit of fuel corresponds to at least one consumed character
    or one nesting level), and fuel exhaustion is reported through the
    same error channel.
-/

/-! ### Error kinds (FuncParseExcept::ErrorType, parser.h) -/

inductive ErrorType where
  | NoInput
  | UnexpectedSymbol
  | UnknownSymbol
  | OpenBraces
  | OperatorExpected
  | EmptyFunction
  | DanglingOperator
  | InvalidVariableIndex
  | UnknownError
deriving DecidableEq, Repr

/-- A thrown parse error: kind together with the zero-based byte offset. -/
abbrev PErr := ErrorType × Nat

/-! ### Exact model of `double` and `std::complex<double>` -/

/-- Exact fraction model of a C++ `double` value: numerator and
denominator kept unnormalized so that all operations reduce in the
kernel.  Every operation the scanner/evaluator performs on doubles is
modelled exactly. -/
structure CDouble where
  num : Int
  den : Int
deriving DecidableEq, Repr

def CDouble.ofInt (n : Int) : CDouble := ⟨n, 1⟩

def CDouble.add (a b : CDouble) : CDouble := ⟨a.num * b.den + b.num * a.den, a.den * b.den⟩

def CDouble.sub (a b : CDouble) : CDouble := ⟨a.num * b.den - b.num * a.den, a.den * b.den⟩

def CDouble.mul (a b : CDouble) : CDouble := ⟨a.num * b.num, a.den * b.den⟩

def CDouble.div (a b : CDouble) : CDouble := ⟨a.num * b.den, a.den * b.num⟩

def CDouble.neg (a : CDouble) : CDouble := ⟨-a.num, a.den⟩

/-- Absolute value (std::abs on the component). -/
def CDouble.cabs (a : CDouble) : CDouble := ⟨|a.num|, |a.den|⟩

/-- The rational number a `CDouble` denotes. -/
def CDouble.toRat (a : CDouble) : ℚ := (a.num : ℚ) / (a.den : ℚ)

/-- Model of `std::complex<double>`: real and imaginary component. -/
abbrev CComplex := CDouble × CDouble

def cadd (a b : CComplex) : CComplex := (a.1.add b.1, a.2.add b.2)

def csub (a b : CComplex) : CComplex := (a.1.sub b.1, a.2.sub b.2)

def cmul (a b : CComplex) : CComplex :=
  ((a.1.mul b.1).sub (a.2.mul b.2), (a.1.mul b.2).add (a.2.mul b.1))

def cdiv (a b : CComplex) : CComplex :=
  let d := (b.1.mul b.1).add (b.2.mul b.2)
  (((a.1.mul b.1).add (a.2.mul b.2)).div d, ((a.2.mul b.1).sub (a.1.mul b.2)).div d)

/-! ### mth:: helper functions (parser.h lines 11-21)

`pos`, `ang`, `re`, `im` each have a complex overload and a real
overload; the transcendental pieces (`atan2` for the complex `ang`) are
not used by any claim, so only the exactly-representable overloads are
defined here.  The real overloads are written exactly as in the header:
in particular the real `re` returns its argument unchanged. -/

namespace mth

/-- Complex `pos`: element-wise absolute value. -/
def pos (t : CComplex) : CComplex := (t.1.cabs, t.2.cabs)

/-- Complex `re`: absolute value of the real component, zero imaginary. -/
def re (t : CComplex) : CComplex := (t.1.cabs, CDouble.ofInt 0)

/-- Complex `im`: absolute value of the imaginary component, zero imaginary. -/
def im (t : CComplex) : CComplex := (t.2.cabs, CDouble.ofInt 0)

/-- Real overload of `pos`: `std::abs`. -/
def posReal (t : CDouble) : CDouble := t.cabs

/-- Real overload of `ang`: returns 0. -/
def angReal (_ : CDouble) : CDouble := CDouble.ofInt 0

/-- Real overload of `re`: `template <typename T> T re(T t) { return t; }`. -/
def reReal (t : CDouble) : CDouble := t

/-- Real overload of `im`: `template <typename T> T im(T t) { return 0; }`. -/
def imReal (_ : CDouble) : CDouble := CDouble.ofInt 0

end mth

/-! ### Character classification (parser.cpp lines 123-146) -/

def getc (s : List Char) (i : Nat) : Char := s.getD i '\x00'

def IsLetter (ch : Char) : Bool :=
  (ch ≥ 'a' && ch ≤ 'z') || (ch ≥ 'A' && ch ≤ 'Z')

def IsDigit (ch : Char) : Bool := ch ≥ '0' && ch ≤ '9'

def IsNamePart (ch : Char) : Bool := IsLetter ch || IsDigit ch || ch = '_'

def IsNumberPart (ch : Char) : Bool := IsDigit ch || ch = '.' || ch = '-'

/-- `size_t` subtraction with wraparound, modelled explicitly mod 2^64. -/
def sub64 (a b : Nat) : Nat := (2 ^ 64 + a - b) % 2 ^ 64

/-! ### CountNameLength (parser.cpp lines 147-153)

The C++ loop scans `name[i]` for `i < length` and returns the first
index holding a non-name character, or `length` if none occurs.  Past
the end of the actual string the next character is the NUL terminator,
which is not a name character, so the scan returns the minimum of the
run of name characters and the `length` bound. -/

def nameRun : List Char → Nat
  | [] => 0
  | ch :: rest => if IsNamePart ch then nameRun rest + 1 else 0

def CountNameLength (s : List Char) (offset limit : Nat) : Nat :=
  min (nameRun (s.drop offset)) limit

/-! ### ScanNumber (parser.cpp lines 154-178)

The integer-part loop multiplies the accumulator by 10 and adds each
digit.  The fractional loop performs, per digit, exactly
`num += digit / (fractionalDiv /= 10.0)` — i.e. it first shrinks the
divisor and then divides the digit by the shrunk divisor.  Both loops
stop at the first non-digit (the NUL terminator past the end stops
them as in C++). -/

def digitVal (ch : Char) : CDouble := CDouble.ofInt ((ch.toNat : Int) - 48)

/-- Integer-digit loop: returns (accumulated value, number of digits read). -/
def intLoop : List Char → CDouble → CDouble × Nat
  | [], num => (num, 0)
  | ch :: rest, num =>
    if IsDigit ch then
      let r := intLoop rest ((CDouble.ofInt 10).mul num |>.add (digitVal ch))
      (r.1, r.2 + 1)
    else (num, 0)

/-- Fractional-digit loop: per digit does `fdiv := fdiv / 10` and then
`num := num + digit / fdiv`, exactly as the C++ expression
`num += (func[offset]-'0') / (fractionalDiv /= 10.0)`. -/
def fracLoop : List Char → CDouble → CDouble → CDouble × Nat
  | [], num, _ => (num, 0)
  | ch :: rest, num, fdiv =>
    if IsDigit ch then
      let fdiv2 := fdiv.div (CDouble.ofInt 10)
      let r := fracLoop rest (num.add ((digitVal ch).div fdiv2)) fdiv2
      (r.1, r.2 + 1)
    else (num, 0)

def ScanNumber (s : List Char) (offset : Nat) : Except PErr (CDouble × Nat) :=
  let firstIdx := offset
  let o1 := if getc s firstIdx = '-' then offset + 1 else offset
  let ir := intLoop (s.drop o1) (CDouble.ofInt 0)
  let o2 := o1 + ir.2
  let fr :=
    if getc s o2 = '.' then
      let r := fracLoop (s.drop (o2 + 1)) ir.1 (CDouble.ofInt 1)
      (r.1, r.2, o2 + 1 + r.2)
    else (ir.1, 0, o2)
  if ir.2 + fr.2.1 = 0 then .error (.UnexpectedSymbol, firstIdx)
  else .ok (if getc s firstIdx = '-' then fr.1.neg else fr.1, fr.2.2)

/-! ### CountBetweenBraces (parser.cpp lines 103-121)

Invoked with `offset` pointing just past an opening parenthesis.  The
C++ loop runs `j` from `offset + 1` (skipping the character at `offset`
itself) while `j < offset + length`, counting depth, and returns
`j - offset` when the counter hits zero; falling off the loop throws
`OpenBraces` at `offset`.  The depth counter starts at 1 and the
function returns the first time it would reach 0, so the counter stays
≥ 1 throughout; `Nat` faithfully models the `size_t` counter on every
reachable path. -/

def cbbLoop (s : List Char) (offset : Nat) : Nat → Nat → Nat → Option Nat
  | _, _, 0 => none
  | j, cntr, remaining + 1 =>
    let ch := getc s j
    if ch = '(' then cbbLoop s offset (j + 1) (cntr + 1) remaining
    else if ch = ')' then
      if cntr = 1 then some (j - offset)
      else cbbLoop s offset (j + 1) (cntr - 1) remaining
    else cbbLoop s offset (j + 1) cntr remaining

def CountBetweenBraces (s : List Char) (offset length : Nat) :
    Except PErr Nat :=
  match cbbLoop s offset (offset + 1) 1 ((offset + length) - (offset + 1)) with
  | some d => .ok d
  | none => .error (.OpenBraces, offset)

/-! ### The AST (FunctionParser::FuncElem, parser.h lines 52-100)

In the C++ program an `Operator` node owns two child pointers that are
either both null (an operator token freshly produced by `ScanOperator`)
or both set (filled in by one assignment pair during reduction); the
two shapes are modelled as two constructors.  A `Function` node's
`param` pointer is only observable once assigned, so the model carries
it directly. -/

inductive FuncName where
  | sin | cos | tan | sinh | cosh | tanh | exp | log | abs | pos | ang | re | im
deriving DecidableEq, Repr

inductive OpName where
  | add | sub | mul | div | pow
deriving DecidableEq, Repr

inductive FuncElem where
  | variable (index : Int)
  | constant (value : CComplex)
  | function (name : FuncName) (param : FuncElem)
  | operatorE (name : OpName) (precedence : Int) (left right : FuncElem)
  | operatorTok (name : OpName) (precedence : Int)
deriving DecidableEq, Repr

inductive Precision where
  | Single
  | Double
  | Extended
deriving DecidableEq, Repr

/-- The parser's session state mutated during scanning:
`m_usedVariables` (a set, modelled as a duplicate-free list) and
`m_supportedPrecision`. -/
structure PState where
  usedVariables : List Int
  supportedPrecision : Precision
deriving DecidableEq, Repr

/-- `std::set<int>::insert`: add the index if not already present. -/
def insertVar (v : Int) (l : List Int) : List Int :=
  if v ∈ l then l else l ++ [v]

/-! ### GetFunctionNameApplyPrecision (parser.cpp lines 180-204) -/

def functionNames : List (List Char × FuncName) :=
  [("sin".toList, .sin), ("cos".toList, .cos), ("tan".toList, .tan),
   ("sinh".toList, .sinh), ("cosh".toList, .cosh), ("tanh".toList, .tanh),
   ("exp".toList, .exp), ("log".toList, .log), ("abs".toList, .abs),
   ("pos".toList, .pos), ("ang".toList, .ang), ("re".toList, .re),
   ("im".toList, .im)]

def lookupFn (name : List Char) : Option FuncName :=
  match functionNames.find? (fun p => p.1 = name) with
  | some p => some p.2
  | none => none

/-- The `switch` inside GetFunctionNameApplyPrecision lists exactly the
cases `pos`, `re`, `im` as precision-safe (note: `ang` is not listed). -/
def safeFn (n : FuncName) : Bool :=
  match n with
  | .pos | .re | .im => true
  | _ => false

def GetFunctionNameApplyPrecision (name : List Char) (offset : Nat) (st : PState) :
    Except (PErr × PState) (FuncName × PState) :=
  match lookupFn name with
  | none => .error ((.UnknownSymbol, offset), st)
  | some n =>
    let st2 :=
      if st.supportedPrecision = Precision.Single then st
      else if safeFn n then st
      else { st with supportedPrecision := .Single }
    .ok (n, st2)

/-! ### Name resolution (the non-function branch of ScanEvaluated,
parser.cpp lines 226-251)

`offset` is the cursor position just past the name (the C++ code has
already executed `offset += nameLength`).  The subtractions
`offset - name.length()` / `offset + 1 - name.length()` cannot wrap at
any call site because `offset` is the name's start plus its length, so
plain `Nat` subtraction models the `size_t` arithmetic. -/

/-- The digit loop computing the variable index of a `z` name
(`index = index * 10 + (name[i] - '0')`), failing on a non-digit. -/
def zIndexLoop : List Char → Int → Option Int
  | [], idx => some idx
  | ch :: rest, idx =>
    if IsDigit ch then zIndexLoop rest (idx * 10 + ((ch.toNat : Int) - 48))
    else none

def resolveName (name : List Char) (offset : Nat) (st : PState) :
    Except (PErr × PState) (FuncElem × Nat × PState) :=
  if name = "i".toList then
    .ok (.constant (CDouble.ofInt 0, CDouble.ofInt 1), offset, st)
  else if name = "c".toList then
    .ok (.variable (-1), offset,
      { st with usedVariables := insertVar (-1) st.usedVariables })
  else if getc name 0 = 'z' then
    if (name.length > 1 ∧ getc name 1 = '0') ∨ name.length > 10 then
      .error ((.UnexpectedSymbol, offset - name.length), st)
    else
      match zIndexLoop (name.drop 1) 0 with
      | none => .error ((.UnexpectedSymbol, offset - name.length), st)
      | some index =>
        .ok (.variable index, offset,
          { st with usedVariables := insertVar index st.usedVariables })
  else
    .error ((.UnexpectedSymbol, offset + 1 - name.length), st)

/-! ### ScanOperator (parser.cpp lines 261-272) -/

def ScanOperator (s : List Char) (offset : Nat) :
    Except PErr (FuncElem × Nat) :=
  let ch := getc s offset
  if ch = '+' then .ok (.operatorTok .add 0, offset + 1)
  else if ch = '-' then .ok (.operatorTok .sub 0, offset + 1)
  else if ch = '*' then .ok (.operatorTok .mul 1, offset + 1)
  else if ch = '/' then .ok (.operatorTok .div 1, offset + 1)
  else if ch = '^' then .ok (.operatorTok .pow 2, offset + 1)
  else .error (.OperatorExpected, offset)

/-! ### The precedence reduction passes (parser.cpp lines 289-316)

The C++ pass compacts the token vector in place with a read index and a
store index; the already-compacted prefix is modelled by the reversed
accumulator `acc` (its head is the most recently stored element, i.e.
`tokenized[storeIdx - 1]`).  A node of operator type at the current
precedence requires a stored left neighbour (`storeIdx > 0`) and an
unread right neighbour (`readIdx + 1 < tokenCount`); otherwise
`EmptyFunction` is thrown.  Matching is on the node's type and
precedence only, exactly as in the C++, so an already-filled operator
node would be re-filled (its previous children discarded). -/

def opPrec : FuncElem → Option (OpName × Int)
  | .operatorTok n p => some (n, p)
  | .operatorE n p _ _ => some (n, p)
  | _ => none

def reducePass (precedence : Int) : List FuncElem → List FuncElem →
    Except PErr (List FuncElem)
  | acc, [] => .ok acc.reverse
  | acc, t :: rest =>
    match opPrec t with
    | some (n, p) =>
      if p = precedence then
        match acc, rest with
        | left :: accRest, right :: rest2 =>
          reducePass precedence (.operatorE n p left right :: accRest) rest2
        | _, _ => .error (.EmptyFunction, 0)
      else reducePass precedence (t :: acc) rest
    | none => reducePass precedence (t :: acc) rest

/-- The three highest-first passes followed by the singleton check
(`if (1 != tokenCount) throw UnknownError`). -/
def reduceAll (tokens : List FuncElem) : Except PErr FuncElem :=
  match reducePass 2 [] tokens with
  | .error e => .error e
  | .ok t1 =>
    match reducePass 1 [] t1 with
    | .error e => .error e
    | .ok t2 =>
      match reducePass 0 [] t2 with
      | .error e => .error e
      | .ok t3 =>
        match t3 with
        | [single] => .ok single
        | _ => .error (.UnknownError, 0)

/-! ### ScanEvaluated / the tokenize loop of ParsePart / ParsePart
(parser.cpp lines 206-259, 274-322)

The three procedures are mutually recursive; recursion is made
structural with an explicit fuel argument, decremented on every call
edge.  `Parse` supplies ample fuel (each consumed character or nesting
level costs a bounded number of units).  Parameters mirror the C++
exactly; in particular the stale `length` parameter of `ScanEvaluated`
is passed on unchanged to `CountBetweenBraces`, to the recursive
function-argument scan, and (as `length - offset`, a `size_t`
subtraction that may wrap) to `CountNameLength`. -/

/-- A pending call to one of the three mutually recursive procedures. -/
inductive PReq where
  | scanEval (s : List Char) (offset length : Nat) (st : PState)
  | tokenize (s : List Char) (i endPos offset0 length0 : Nat) (scanEv : Bool)
      (acc : List FuncElem) (st : PState)
  | parsePart (s : List Char) (offset length : Nat) (st : PState)

/-- The result of one of the three procedures. -/
inductive PRes where
  | scanEval (r : Except (PErr × PState) (FuncElem × Nat × PState))
  | tokenize (r : Except (PErr × PState) (List FuncElem × Bool × PState))
  | parsePart (r : Except (PErr × PState) (FuncElem × PState))

/-- Project a `PRes` to a ScanEvaluated result.  `parserRun` always
answers a request with the matching result shape, so the default arm is
unreachable. -/
def PRes.asScan (r : PRes) (st : PState) :
    Except (PErr × PState) (FuncElem × Nat × PState) :=
  match r with
  | .scanEval e => e
  | _ => .error ((.UnknownError, 0), st)

def PRes.asTok (r : PRes) (st : PState) :
    Except (PErr × PState) (List FuncElem × Bool × PState) :=
  match r with
  | .tokenize e => e
  | _ => .error ((.UnknownError, 0), st)

def PRes.asPart (r : PRes) (st : PState) :
    Except (PErr × PState) (FuncElem × PState) :=
  match r with
  | .parsePart e => e
  | _ => .error ((.UnknownError, 0), st)

/-- The three mutually recursive procedures as one function, recursing
structurally on fuel (so that the kernel can evaluate it).  Fuel
exhaustion is reported as `UnknownError` with the state unchanged;
`Parse` supplies fuel ample for any input. -/
def parserRun : Nat → PReq → PRes
  | 0, .scanEval _ _ _ st => .scanEval (.error ((.UnknownError, 0), st))
  | 0, .tokenize _ _ _ _ _ _ _ st => .tokenize (.error ((.UnknownError, 0), st))
  | 0, .parsePart _ _ _ st => .parsePart (.error ((.UnknownError, 0), st))
  | fuel + 1, .scanEval s offset length st =>
    .scanEval (
      if getc s offset = '(' then
        match CountBetweenBraces s (offset + 1) length with
        | .error e => .error (e, st)
        | .ok bracedLength =>
          match (parserRun fuel (.parsePart s (offset + 1) bracedLength st)).asPart st with
          | .error est => .error est
          | .ok (elem, st2) => .ok (elem, offset + 1 + bracedLength + 1, st2)
      else if IsLetter (getc s offset) then
        let nameLength := CountNameLength s offset (sub64 length offset)
        let name := (s.drop offset).take nameLength
        let offset2 := offset + nameLength
        if getc s offset2 = '(' then
          match GetFunctionNameApplyPrecision name offset2 st with
          | .error est => .error est
          | .ok (fname, st2) =>
            match (parserRun fuel (.scanEval s offset2 length st2)).asScan st2 with
            | .error est => .error est
            | .ok (arg, offset3, st3) => .ok (.function fname arg, offset3, st3)
        else resolveName name offset2 st
      else if IsNumberPart (getc s offset) then
        match ScanNumber s offset with
        | .error e => .error (e, st)
        | .ok (v, offset2) => .ok (.constant (v, CDouble.ofInt 0), offset2, st)
      else .error ((.UnknownSymbol, offset), st))
  | fuel + 1, .tokenize s i endPos offset0 length0 scanEv acc st =>
    .tokenize (
      if i < endPos then
        if scanEv then
          match (parserRun fuel (.scanEval s i (length0 + offset0 - i) st)).asScan st with
          | .error est => .error est
          | .ok (elem, i2, st2) =>
            (parserRun fuel
              (.tokenize s i2 endPos offset0 length0 false (acc ++ [elem]) st2)).asTok st2
        else
          match ScanOperator s i with
          | .error e => .error (e, st)
          | .ok (opTok, i2) =>
            (parserRun fuel
              (.tokenize s i2 endPos offset0 length0 true (acc ++ [opTok]) st)).asTok st
      else .ok (acc, scanEv, st))
  | fuel + 1, .parsePart s offset length st =>
    .parsePart (
      if length = 0 then .error ((.NoInput, 0), st)
      else
        match (parserRun fuel
            (.tokenize s offset (offset + length) offset length true [] st)).asTok st with
        | .error est => .error est
        | .ok (tokens, lastFlag, st2) =>
          if lastFlag then .error ((.DanglingOperator, offset + length - 1), st2)
          else if tokens = [] then .error ((.NoInput, 0), st2)
          else
            match reduceAll tokens with
            | .error e => .error (e, st2)
            | .ok elem => .ok (elem, st2))

def ScanEvaluated (fuel : Nat) (s : List Char) (offset length : Nat) (st : PState) :
    Except (PErr × PState) (FuncElem × Nat × PState) :=
  (parserRun fuel (.scanEval s offset length st)).asScan st

def Tokenize (fuel : Nat) (s : List Char) (i endPos offset0 length0 : Nat)
    (scanEv : Bool) (acc : List FuncElem) (st : PState) :
    Except (PErr × PState) (List FuncElem × Bool × PState) :=
  (parserRun fuel (.tokenize s i endPos offset0 length0 scanEv acc st)).asTok st

def ParsePart (fuel : Nat) (s : List Char) (offset length : Nat) (st : PState) :
    Except (PErr × PState) (FuncElem × PState) :=
  (parserRun fuel (.parsePart s offset length st)).asPart st

/-! ### FunctionParser::Parse (parser.cpp lines 336-346)

`Parse` first calls `Clear()` (resetting all four members), strips
whitespace from the raw input, and runs `ParsePart` on the cleaned
string.  The members `m_inputFunc` and `m_parsedFunc` are assigned only
after `ParsePart` returns, so on a throw they keep their cleared
values, while `m_usedVariables` and `m_supportedPrecision` keep
whatever the scan wrote before the throw.  Because of the initial
`Clear()`, the outcome does not depend on the previous parser state. -/

structure ParserObj where
  inputFunc : List Char
  parsedFunc : Option FuncElem
  usedVariables : List Int
  supportedPrecision : Precision
deriving DecidableEq, Repr

def freshParser : ParserObj := ⟨[], none, [], .Extended⟩

/-- `std::isspace` in the default C locale. -/
def isSpaceChar (ch : Char) : Bool :=
  ch = ' ' || ch = '\t' || ch = '\n' || ch = '\x0b' || ch = '\x0c' || ch = '\r'

def stripWS (s : List Char) : List Char := s.filter (fun ch => !isSpaceChar ch)

def parseFuel (n : Nat) : Nat := 4 * n + 16

def Parse (function : List Char) : ParserObj × Option PErr :=
  let input := stripWS function
  match ParsePart (parseFuel input.length) input 0 input.length ⟨[], .Extended⟩ with
  | .ok (elem, st) =>
    (⟨input, some elem, st.usedVariables, st.supportedPrecision⟩, none)
  | .error (e, st) =>
    (⟨[], none, st.usedVariables, st.supportedPrecision⟩, some e)

/-! ### FunctionEvaluator (parser.h lines 134-284)

The evaluator is a template over a numeric type; instantiated at
`std::complex<double>` its binary-operator table is `+,-,*,/,std::pow`
and its function table is the thirteen unary entries.  The field
operations are modelled exactly over `CComplex`; the transcendental
entries (`std::pow`, `sin`, ..., `log`, complex `abs`, `atan2`-based
`ang`) have no exact rational counterpart and are supplied abstractly
through a `Transcend` record, while `pos`, `re`, `im` use the exact
`mth` definitions.  The construction-time variable lookup
(`ConvertVariable`: a missing index throws `InvalidVariableIndex`) and
the by-reference read of the slot are merged into the evaluation walk;
an operator node with unassigned children (never produced by a
successful parse) maps to `UnknownError`. -/

structure Transcend where
  cpow : CComplex → CComplex → CComplex
  csin : CComplex → CComplex
  ccos : CComplex → CComplex
  ctan : CComplex → CComplex
  csinh : CComplex → CComplex
  ccosh : CComplex → CComplex
  ctanh : CComplex → CComplex
  cexp : CComplex → CComplex
  clog : CComplex → CComplex
  cabsC : CComplex → CComplex
  cang : CComplex → CComplex

def applyOp (tr : Transcend) : OpName → CComplex → CComplex → CComplex
  | .add => cadd
  | .sub => csub
  | .mul => cmul
  | .div => cdiv
  | .pow => tr.cpow

def applyFn (tr : Transcend) : FuncName → CComplex → CComplex
  | .sin => tr.csin
  | .cos => tr.ccos
  | .tan => tr.ctan
  | .sinh => tr.csinh
  | .cosh => tr.ccosh
  | .tanh => tr.ctanh
  | .exp => tr.cexp
  | .log => tr.clog
  | .abs => tr.cabsC
  | .pos => mth.pos
  | .ang => tr.cang
  | .re => mth.re
  | .im => mth.im

def evalElem (tr : Transcend) (used : List Int) (env : Int → CComplex) :
    FuncElem → Except PErr CComplex
  | .variable index =>
    if index ∈ used then .ok (env index) else .error (.InvalidVariableIndex, 0)
  | .constant v => .ok v
  | .function name param =>
    match evalElem tr used env param with
    | .error e => .error e
    | .ok v => .ok (applyFn tr name v)
  | .operatorE name _ left right =>
    match evalElem tr used env left with
    | .error e => .error e
    | .ok vl =>
      match evalElem tr used env right with
      | .error e => .error e
      | .ok vr => .ok (applyOp tr name vl vr)
  | .operatorTok _ _ => .error (.UnknownError, 0)

/-- Build-and-run of `FunctionEvaluator` from a parsed `FunctionParser`:
the variable store holds one slot per index in `UsedVariables()`, whose
current contents the caller supplies as `env`. -/
def evalParse (tr : Transcend) (env : Int → CComplex) (p : ParserObj) :
    Except PErr CComplex :=
  match p.parsedFunc with
  | some elem => evalElem tr p.usedVariables env elem
  | none => .error (.UnknownError, 0)

/-! ### Support definitions for the statements and witnesses below -/

/-- The state carried by a ScanEvaluated-shaped result (on both the
success and the throw path). -/
def scanState : Except (PErr × PState) (FuncElem × Nat × PState) → PState
  | .ok (_, _, st) => st
  | .error (_, st) => st

/-- The state carried by a tokenize-shaped result. -/
def tokState : Except (PErr × PState) (List FuncElem × Bool × PState) → PState
  | .ok (_, _, st) => st
  | .error (_, st) => st

/-- The state carried by a ParsePart-shaped result. -/
def partState : Except (PErr × PState) (FuncElem × PState) → PState
  | .ok (_, st) => st
  | .error (_, st) => st

/-- The parser state carried by any result. -/
def PRes.pstate : PRes → PState
  | .scanEval r => scanState r
  | .tokenize r => tokState r
  | .parsePart r => partState r

/-- The parser state a request starts from. -/
def PReq.pstate : PReq → PState
  | .scanEval _ _ _ st => st
  | .tokenize _ _ _ _ _ _ _ st => st
  | .parsePart _ _ _ st => st

/-- The variable index computed for a `z` name with digit suffix `ds`
(the loop `index = index * 10 + (name[i] - '0')`). -/
def zIndexValue (ds : List Char) : Int :=
  ds.foldl (fun a ch => a * 10 + ((ch.toNat : Int) - 48)) 0

/-- Ideal natural-number power over the exact complex model, used to
instantiate the abstract `std::pow` at integer arguments in witnesses. -/
def cpowNat (a : CComplex) : Nat → CComplex
  | 0 => (CDouble.ofInt 1, CDouble.ofInt 0)
  | n + 1 => cmul a (cpowNat a n)

/-- A `Transcend` instantiation whose entries are placeholders; used
only by witnesses of statements that never consult these entries. -/
def trId : Transcend :=
  ⟨fun _ _ => (CDouble.ofInt 0, CDouble.ofInt 0), id, id, id, id, id, id, id, id, id, id⟩

/-- A `Transcend` instantiation whose `pow` is the ideal power at
nonnegative-integer exponents; used by witnesses. -/
def trPow : Transcend := { trId with cpow := fun a b => cpowNat a b.1.num.toNat }

/-! ### Helper lemmas -/

theorem precStep {a b c : Precision} (h1 : b = a ∨ b = .Single)
    (h2 : c = b ∨ c = .Single) : c = a ∨ c = .Single := by
  rcases h1 with h1 | h1 <;> rcases h2 with h2 | h2 <;> simp [h1, h2]

theorem getFn_ok_rule (name : List Char) (offset : Nat) (st : PState)
    (n : FuncName) (st2 : PState)
    (h : GetFunctionNameApplyPrecision name offset st = .ok (n, st2)) :
    st2.supportedPrecision =
      (if st.supportedPrecision = .Single then .Single
       else if safeFn n then st.supportedPrecision else .Single) := by
  unfold GetFunctionNameApplyPrecision at h
  cases hl : lookupFn name with
  | none => rw [hl] at h; exact absurd h (by simp)
  | some m =>
    rw [hl] at h
    simp only [Except.ok.injEq, Prod.mk.injEq] at h
    obtain ⟨hn, hst⟩ := h
    subst hn
    rw [← hst]
    by_cases h1 : st.supportedPrecision = .Single
    · simp [h1]
    · by_cases h2 : safeFn m = true <;> simp [h1, h2]

theorem getFn_err_state (name : List Char) (offset : Nat) (st : PState)
    (e : PErr) (st2 : PState)
    (h : GetFunctionNameApplyPrecision name offset st = .error (e, st2)) :
    st2 = st := by
  unfold GetFunctionNameApplyPrecision at h
  cases hl : lookupFn name with
  | none => rw [hl] at h; simp only [Except.error.injEq, Prod.mk.injEq] at h; exact h.2.symm
  | some m => rw [hl] at h; exact absurd h (by simp)

theorem getFn_ok_prec_mono (name : List Char) (offset : Nat) (st : PState)
    (n : FuncName) (st2 : PState)
    (h : GetFunctionNameApplyPrecision name offset st = .ok (n, st2)) :
    st2.supportedPrecision = st.supportedPrecision ∨
      st2.supportedPrecision = .Single := by
  rw [getFn_ok_rule name offset st n st2 h]
  by_cases h1 : st.supportedPrecision = .Single
  · simp [h1]
  · by_cases h2 : safeFn n <;> simp [h1, h2]

theorem resolveName_state_prec (name : List Char) (offset : Nat) (st : PState) :
    (scanState (resolveName name offset st)).supportedPrecision =
      st.supportedPrecision := by
  unfold resolveName
  split
  · rfl
  · split
    · rfl
    · split
      · split
        · rfl
        · cases zIndexLoop (name.drop 1) 0 <;> rfl
      · rfl

theorem zIndexLoop_digits (ds : List Char) :
    ∀ acc : Int, (∀ ch ∈ ds, IsDigit ch = true) →
    zIndexLoop ds acc =
      some (ds.foldl (fun a ch => a * 10 + ((ch.toNat : Int) - 48)) acc) := by
  induction ds with
  | nil => intro acc _; rfl
  | cons ch rest ih =>
    intro acc h
    have hch : IsDigit ch = true := h ch (List.mem_cons_self ch rest)
    simp only [zIndexLoop, hch, if_true, List.foldl_cons]
    exact ih _ (fun x hx => h x (List.mem_cons_of_mem ch hx))

theorem cbb_error_eq (s : List Char) (offset length : Nat) (e : PErr)
    (h : CountBetweenBraces s offset length = .error e) :
    e = (.OpenBraces, offset) := by
  unfold CountBetweenBraces at h
  cases hl : cbbLoop s offset (offset + 1) 1 ((offset + length) - (offset + 1)) with
  | none => rw [hl] at h; simpa using h.symm
  | some d => rw [hl] at h; exact absurd h (by simp)
theorem parserRun_scan_shape (f : Nat) (s : List Char) (o l : Nat) (st : PState) :
    parserRun f (.scanEval s o l st) = .scanEval (ScanEvaluated f s o l st) := by
  cases f <;> rfl

theorem parserRun_tok_shape (f : Nat) (s : List Char) (i e o0 l0 : Nat) (flag : Bool)
    (acc : List FuncElem) (st : PState) :
    parserRun f (.tokenize s i e o0 l0 flag acc st) =
      .tokenize (Tokenize f s i e o0 l0 flag acc st) := by
  cases f <;> rfl

theorem parserRun_part_shape (f : Nat) (s : List Char) (o l : Nat) (st : PState) :
    parserRun f (.parsePart s o l st) = .parsePart (ParsePart f s o l st) := by
  cases f <;> rfl

theorem state_mono (fuel : Nat) :
    (∀ s o l st,
      (scanState (ScanEvaluated fuel s o l st)).supportedPrecision = st.supportedPrecision ∨
      (scanState (ScanEvaluated fuel s o l st)).supportedPrecision = .Single) ∧
    (∀ s i e o0 l0 flag acc st,
      (tokState (Tokenize fuel s i e o0 l0 flag acc st)).supportedPrecision = st.supportedPrecision ∨
      (tokState (Tokenize fuel s i e o0 l0 flag acc st)).supportedPrecision = .Single) ∧
    (∀ s o l st,
      (partState (ParsePart fuel s o l st)).supportedPrecision = st.supportedPrecision ∨
      (partState (ParsePart fuel s o l st)).supportedPrecision = .Single) := by
  induction fuel with
  | zero =>
    refine ⟨fun s o l st => Or.inl rfl, fun s i e o0 l0 flag acc st => Or.inl rfl,
      fun s o l st => Or.inl rfl⟩
  | succ f ih =>
    obtain ⟨ihS, ihT, ihP⟩ := ih
    refine ⟨?_, ?_, ?_⟩
    · -- ScanEvaluated
      intro s o l st
      unfold ScanEvaluated
      simp only [parserRun, parserRun_part_shape, parserRun_scan_shape, PRes.asScan, PRes.asPart]
      split
      · -- '(' branch
        cases hcb : CountBetweenBraces s (o + 1) l with
        | error e => simp only [hcb, scanState]; exact Or.inl trivial
        | ok bl =>
          simp only [hcb]
          cases hp : ParsePart f s (o + 1) bl st with
          | error est =>
            obtain ⟨pe, st2⟩ := est
            have h1 := ihP s (o + 1) bl st
            rw [hp] at h1
            simp only [partState] at h1
            simp only [hp, scanState]
            exact h1
          | ok r =>
            obtain ⟨elem, st2⟩ := r
            have h1 := ihP s (o + 1) bl st
            rw [hp] at h1
            simp only [partState] at h1
            simp only [hp, scanState]
            exact h1
      · split
        · -- letter branch
          split
          · -- function call
            cases hg : GetFunctionNameApplyPrecision ((s.drop o).take (CountNameLength s o (sub64 l o)))
                (o + CountNameLength s o (sub64 l o)) st with
            | error est =>
              obtain ⟨pe, st2⟩ := est
              have h2 := getFn_err_state _ _ _ _ _ hg
              subst h2
              simp only [hg, scanState]
              exact Or.inl trivial
            | ok r =>
              obtain ⟨fname, st2⟩ := r
              have hmono := getFn_ok_prec_mono _ _ _ _ _ hg
              simp only [hg]
              cases hs : ScanEvaluated f s (o + CountNameLength s o (sub64 l o)) l st2 with
              | error est2 =>
                obtain ⟨pe, st3⟩ := est2
                have h1 := ihS s (o + CountNameLength s o (sub64 l o)) l st2
                rw [hs] at h1
                simp only [scanState] at h1
                simp only [hs, scanState]
                exact precStep hmono h1
              | ok r2 =>
                obtain ⟨arg, o3, st3⟩ := r2
                have h1 := ihS s (o + CountNameLength s o (sub64 l o)) l st2
                rw [hs] at h1
                simp only [scanState] at h1
                simp only [hs, scanState]
                exact precStep hmono h1
          · -- plain name
            exact Or.inl (resolveName_state_prec _ _ _)
        · split
          · -- number branch
            cases hn : ScanNumber s o with
            | error e => simp only [hn, scanState]; exact Or.inl trivial
            | ok vo =>
              obtain ⟨v, o2⟩ := vo
              simp only [hn, scanState]
              exact Or.inl trivial
          · exact Or.inl rfl
    · -- Tokenize
      intro s i e o0 l0 flag acc st
      unfold Tokenize
      simp only [parserRun, parserRun_scan_shape, parserRun_tok_shape, PRes.asScan, PRes.asTok]
      split
      · split
        · -- operand scan
          cases hs : ScanEvaluated f s i (l0 + o0 - i) st with
          | error est =>
            obtain ⟨pe, st2⟩ := est
            have h1 := ihS s i (l0 + o0 - i) st
            rw [hs] at h1
            simp only [scanState] at h1
            simp only [hs, tokState]
            exact h1
          | ok r =>
            obtain ⟨elem, i2, st2⟩ := r
            have h1 := ihS s i (l0 + o0 - i) st
            rw [hs] at h1
            simp only [scanState] at h1
            have h2 := ihT s i2 e o0 l0 false (acc ++ [elem]) st2
            simp only [hs]
            exact precStep h1 h2
        · -- operator scan
          cases ho : ScanOperator s i with
          | error er => simp only [ho, tokState]; exact Or.inl trivial
          | ok r =>
            obtain ⟨opTok, i2⟩ := r
            simp only [ho]
            exact ihT s i2 e o0 l0 true (acc ++ [opTok]) st
      · exact Or.inl rfl
    · -- ParsePart
      intro s o l st
      unfold ParsePart
      simp only [parserRun, parserRun_tok_shape, PRes.asTok, PRes.asPart]
      split
      · exact Or.inl rfl
      · cases ht : Tokenize f s o (o + l) o l true [] st with
        | error est =>
          obtain ⟨pe, st2⟩ := est
          have h1 := ihT s o (o + l) o l true [] st
          rw [ht] at h1
          simp only [tokState] at h1
          simp only [ht, partState]
          exact h1
        | ok r =>
          obtain ⟨tokens, lastFlag, st2⟩ := r
          have h1 := ihT s o (o + l) o l true [] st
          rw [ht] at h1
          simp only [tokState] at h1
          simp only [ht]
          split
          · simp only [partState]; exact h1
          · split
            · simp only [partState]; exact h1
            · cases hr : reduceAll tokens with
              | error er => simp only [hr, partState]; exact h1
              | ok elem => simp only [hr, partState]; exact h1

theorem Parse_prec_mono (input : List Char) :
    (Parse input).1.supportedPrecision = .Extended ∨
    (Parse input).1.supportedPrecision = .Single := by
  have h := (state_mono (parseFuel (stripWS input).length)).2.2 (stripWS input) 0
    (stripWS input).length ⟨[], .Extended⟩
  simp only [Parse]
  cases hp : ParsePart (parseFuel (stripWS input).length) (stripWS input) 0
      (stripWS input).length ⟨[], .Extended⟩ with
  | ok r =>
    obtain ⟨elem, st⟩ := r
    rw [hp] at h
    simp only [partState] at h
    simp only [hp]
    simpa using h
  | error r =>
    obtain ⟨e, st⟩ := r
    rw [hp] at h
    simp only [partState] at h
    simp only [hp]
    simpa using h

/-! ### Claim theorems -/

/-- C1: the Number Scanner is claimed to return the standard decimal
value of the literal, with `"1.5"` yielding 1.5.  The code instead
divides each fractional digit by the already-shrunk divisor
(`num += d / (fractionalDiv /= 10)`), so scanning `"1.5"` produces the
value 51 (= 1 + 5 / (1/10)) rather than 1.5: evaluation of the embedded
scanner and of the full parse at the failing input `"1.5"`. -/
theorem c1_number_scanner_fractional_bug :
    ScanNumber "1.5".toList 0 = .ok (⟨51, 1⟩, 3) ∧
    (Parse "1.5".toList).1.parsedFunc = some (.constant (⟨51, 1⟩, ⟨0, 1⟩)) ∧
    CDouble.toRat ⟨51, 1⟩ = 51 ∧ (51 : ℚ) ≠ 3 / 2 := by
  refine ⟨rfl, rfl, ?_, ?_⟩
  · norm_num [CDouble.toRat]
  · norm_num

/-- C2: the Brace Matcher is claimed to return the distance to the
matching `)`, making `"((z))"` parse as a single operand.  The code
starts its scan at `offset + 1`, skipping the first character after the
opening parenthesis: on `"((z))"` (cursor just past the outer `(` at
offset 1) it returns 2 instead of 3 (the `)` matching the outer `(` is
at index 4), the whole parse then fails with `OperatorExpected` at 4,
and even the balanced input `"()"` is reported as `OpenBraces`. -/
theorem c2_brace_matcher_skip_bug :
    CountBetweenBraces "((z))".toList 1 5 = .ok 2 ∧
    getc "((z))".toList (1 + 3) = ')' ∧
    CountBetweenBraces "()".toList 1 2 = .error (.OpenBraces, 1) ∧
    (Parse "((z))".toList).2 = some (.OperatorExpected, 4) ∧
    (Parse "((z))".toList).1.parsedFunc = none :=
  ⟨rfl, rfl, rfl, rfl, rfl⟩

/-- C3: `"z*z+c"` parses to
`Operator(add, Operator(mul, Variable 0, Variable 0), Variable (-1))`,
and under the complex instantiation with `z = 0.5 + 0i` and
`c = 0 + 0i` the evaluator returns `0.25 + 0i` (for every
instantiation of the transcendental entries, which this tree never
consults). -/
theorem c3_parse_and_eval_z_mul_z_add_c :
    (Parse "z*z+c".toList).1.parsedFunc =
      some (.operatorE .add 0 (.operatorE .mul 1 (.variable 0) (.variable 0))
        (.variable (-1))) ∧
    (Parse "z*z+c".toList).1.usedVariables = [0, -1] ∧
    (∀ tr : Transcend,
      evalParse tr (fun idx => if idx = 0 then (⟨1, 2⟩, ⟨0, 1⟩) else (⟨0, 1⟩, ⟨0, 1⟩))
        (Parse "z*z+c".toList).1 = .ok (⟨1, 4⟩, ⟨0, 4⟩)) ∧
    CDouble.toRat ⟨1, 2⟩ = 1 / 2 ∧ CDouble.toRat ⟨1, 4⟩ = 1 / 4 ∧
    CDouble.toRat ⟨0, 4⟩ = 0 := by
  refine ⟨rfl, rfl, fun tr => rfl, ?_, ?_, ?_⟩ <;> norm_num [CDouble.toRat]

/-- Witness for C3 at a concrete transcendental table. -/
theorem c3_parse_and_eval_witness :
    evalParse trId (fun idx => if idx = 0 then (⟨1, 2⟩, ⟨0, 1⟩) else (⟨0, 1⟩, ⟨0, 1⟩))
      (Parse "z*z+c".toList).1 = .ok (⟨1, 4⟩, ⟨0, 4⟩) :=
  c3_parse_and_eval_z_mul_z_add_c.2.2.1 trId

/-- C4 (amended): the precision capability starts at the most
permissive level (`Extended`) on each fresh parse and is only ever
downgraded, always directly to `Single`; resolving a function name
preserves the current level exactly when the name is one of
`pos`, `re`, `im` (note: `ang` is NOT in the code's safe set, contrary
to the original claim) and otherwise sets it to `Single`, where it
stays.  Parsing `"sin(z)"` yields `Single`; parsing `"re(z)+im(c)"`
leaves the initial permissive level. -/
theorem c4_precision_rule_amended :
    (∀ name offset st n st2,
      GetFunctionNameApplyPrecision name offset st = .ok (n, st2) →
      st2.supportedPrecision =
        (if st.supportedPrecision = .Single then .Single
         else if safeFn n then st.supportedPrecision else .Single)) ∧
    safeFn .pos = true ∧ safeFn .re = true ∧ safeFn .im = true ∧
    safeFn .ang = false ∧ safeFn .sin = false ∧
    (∀ input, (Parse input).1.supportedPrecision = .Extended ∨
      (Parse input).1.supportedPrecision = .Single) ∧
    freshParser.supportedPrecision = .Extended ∧
    (Parse "sin(z)".toList).1.supportedPrecision = .Single ∧
    (Parse "re(z)+im(c)".toList).1.supportedPrecision = .Extended :=
  ⟨getFn_ok_rule, rfl, rfl, rfl, rfl, rfl, Parse_prec_mono, rfl, rfl, rfl⟩

/-- Witness for C4: the downgrade rule applied to resolving `sin` from
the fresh state. -/
theorem c4_precision_rule_witness :
    (⟨[], Precision.Single⟩ : PState).supportedPrecision =
      (if (⟨[], Precision.Extended⟩ : PState).supportedPrecision = .Single then .Single
       else if safeFn .sin then (⟨[], Precision.Extended⟩ : PState).supportedPrecision
       else .Single) :=
  c4_precision_rule_amended.1 "sin".toList 3 ⟨[], .Extended⟩ .sin ⟨[], .Single⟩ rfl

/-- Counterexample for C4 as stated: the claim counts `ang` among the
functions that keep the permissive level, but parsing `"ang(z)"`
downgrades the capability to `Single`. -/
theorem c4_ang_downgrades_counterexample :
    (Parse "ang(z)".toList).1.supportedPrecision = .Single ∧
    Precision.Single ≠ Precision.Extended := ⟨rfl, by decide⟩

/-- C5: all operators, including `pow`, are folded left-associatively:
`"2^3^2"` parses to `pow(pow(2,3),2)` and (for any power table agreeing
with the ideal integer power at the two evaluation points) evaluates to
64, not 512; `"1+2*3"` parses with `mul` tighter than `add` and
evaluates to 7. -/
theorem c5_left_associative_pow :
    (Parse "2^3^2".toList).1.parsedFunc =
      some (.operatorE .pow 2
        (.operatorE .pow 2 (.constant (⟨2, 1⟩, ⟨0, 1⟩)) (.constant (⟨3, 1⟩, ⟨0, 1⟩)))
        (.constant (⟨2, 1⟩, ⟨0, 1⟩))) ∧
    (∀ tr : Transcend,
      tr.cpow (⟨2, 1⟩, ⟨0, 1⟩) (⟨3, 1⟩, ⟨0, 1⟩) = (⟨8, 1⟩, ⟨0, 1⟩) →
      tr.cpow (⟨8, 1⟩, ⟨0, 1⟩) (⟨2, 1⟩, ⟨0, 1⟩) = (⟨64, 1⟩, ⟨0, 1⟩) →
      evalParse tr (fun _ => (⟨0, 1⟩, ⟨0, 1⟩)) (Parse "2^3^2".toList).1 =
        .ok (⟨64, 1⟩, ⟨0, 1⟩)) ∧
    CDouble.toRat ⟨64, 1⟩ = 64 ∧ (64 : ℚ) ≠ 512 ∧
    (Parse "1+2*3".toList).1.parsedFunc =
      some (.operatorE .add 0 (.constant (⟨1, 1⟩, ⟨0, 1⟩))
        (.operatorE .mul 1 (.constant (⟨2, 1⟩, ⟨0, 1⟩)) (.constant (⟨3, 1⟩, ⟨0, 1⟩)))) ∧
    (∀ tr : Transcend,
      evalParse tr (fun _ => (⟨0, 1⟩, ⟨0, 1⟩)) (Parse "1+2*3".toList).1 =
        .ok (⟨7, 1⟩, ⟨0, 1⟩)) ∧
    CDouble.toRat ⟨7, 1⟩ = 7 := by
  refine ⟨rfl, ?_, ?_, ?_, rfl, fun tr => rfl, ?_⟩
  · intro tr h1 h2
    have hstep : evalParse tr (fun _ => (⟨0, 1⟩, ⟨0, 1⟩)) (Parse "2^3^2".toList).1 =
        .ok (tr.cpow (tr.cpow (⟨2, 1⟩, ⟨0, 1⟩) (⟨3, 1⟩, ⟨0, 1⟩)) (⟨2, 1⟩, ⟨0, 1⟩)) := rfl
    rw [hstep, h1, h2]
  · norm_num [CDouble.toRat]
  · norm_num
  · norm_num [CDouble.toRat]

/-- Witness for C5 at the ideal integer power. -/
theorem c5_left_associative_pow_witness :
    evalParse trPow (fun _ => (⟨0, 1⟩, ⟨0, 1⟩)) (Parse "2^3^2".toList).1 =
      .ok (⟨64, 1⟩, ⟨0, 1⟩) :=
  c5_left_associative_pow.2.1 trPow rfl rfl

/-- C6 (amended): whenever the Brace Matcher fails to find the matching
closing parenthesis, the error it throws is `OpenBraces` carrying the
offset it was invoked with — one past the opening parenthesis, not the
opening parenthesis's own offset.  In particular `"(z+1"` fails with
`OpenBraces` at offset 1 (the `(` sits at offset 0), with no stored
result. -/
theorem c6_open_braces_offset_amended :
    (∀ s offset length e, CountBetweenBraces s offset length = .error e →
      e = (.OpenBraces, offset)) ∧
    getc "(z+1".toList 0 = '(' ∧
    (Parse "(z+1".toList).2 = some (.OpenBraces, 1) ∧
    (Parse "(z+1".toList).1.parsedFunc = none :=
  ⟨cbb_error_eq, rfl, rfl, rfl⟩

/-- Witness for C6 at the concrete unbalanced input. -/
theorem c6_open_braces_offset_witness :
    ((.OpenBraces, 1) : PErr) = ((.OpenBraces, 1) : PErr) :=
  c6_open_braces_offset_amended.1 "(z+1".toList 1 4 (.OpenBraces, 1) rfl

/-- Counterexample for C6 as stated: `"(z+1"` fails at offset 1, not at
the opening parenthesis's offset 0. -/
theorem c6_open_braces_offset_counterexample :
    (Parse "(z+1".toList).2 = some (.OpenBraces, 1) ∧
    (Parse "(z+1".toList).2 ≠ some (.OpenBraces, 0) := ⟨rfl, by decide⟩

/-- C7 (amended): a scanned name that is not followed by `(`, does not
begin with `z`, and is not exactly `i` or `c` fails with the
unexpected-symbol kind (not unknown-symbol) at the offset one past the
name's first character (not the first character itself).  In
particular `"q"` fails with `UnexpectedSymbol` at offset 1. -/
theorem c7_unknown_name_amended :
    (∀ name offset st, getc name 0 ≠ 'z' → name ≠ "i".toList → name ≠ "c".toList →
      resolveName name offset st =
        .error ((.UnexpectedSymbol, offset + 1 - name.length), st)) ∧
    (Parse "q".toList).2 = some (.UnexpectedSymbol, 1) ∧
    (Parse "q".toList).1.parsedFunc = none := by
  refine ⟨?_, rfl, rfl⟩
  intro name offset st h1 h2 h3
  unfold resolveName
  rw [if_neg h2, if_neg h3, if_neg h1]

/-- Witness for C7 at the concrete name `q`. -/
theorem c7_unknown_name_witness :
    resolveName "q".toList 1 ⟨[], .Extended⟩ =
      .error ((.UnexpectedSymbol, 1), ⟨[], .Extended⟩) :=
  c7_unknown_name_amended.1 "q".toList 1 ⟨[], .Extended⟩ (by decide) (by decide) (by decide)

/-- Counterexample for C7 as stated: parsing `"q"` throws
`UnexpectedSymbol` at offset 1, not `UnknownSymbol` at the name's start
offset 0. -/
theorem c7_unknown_name_counterexample :
    (Parse "q".toList).2 = some (.UnexpectedSymbol, 1) ∧
    (Parse "q".toList).2 ≠ some (.UnknownSymbol, 0) := ⟨rfl, by decide⟩

/-- C8 (amended): a `z` name may carry a decimal suffix with no leading
zero and at most NINE digits (the code rejects names longer than 10
characters, i.e. suffixes of 10 or more digits, contrary to the
original claim's "at most 10 digits"): `"z1"` and `"z10"` parse to
Variable indices 1 and 10, every all-digit suffix of at most 9 digits
with no leading zero is accepted with the index given by the decimal
digit fold, and `"z01"` as well as any suffix of 10 or more digits
fails with the unexpected-symbol kind. -/
theorem c8_z_suffix_amended :
    (∀ ds offset st, ds.length ≤ 9 → (∀ ch ∈ ds, IsDigit ch = true) →
      (∀ ch ∈ ds.take 1, ch ≠ '0') →
      resolveName ('z' :: ds) offset st =
        .ok (.variable (zIndexValue ds), offset,
          { st with usedVariables := insertVar (zIndexValue ds) st.usedVariables })) ∧
    (Parse "z1".toList).1.parsedFunc = some (.variable 1) ∧
    (Parse "z10".toList).1.parsedFunc = some (.variable 10) ∧
    (Parse "z01".toList).2 = some (.UnexpectedSymbol, 0) ∧
    (Parse "z1234567890".toList).2 = some (.UnexpectedSymbol, 0) ∧
    "z1234567890".toList.length = 11 := by
  refine ⟨?_, rfl, rfl, rfl, rfl, rfl⟩
  intro ds offset st hlen hdig hhead
  unfold resolveName
  rw [if_neg ?hni, if_neg ?hnc, if_pos (show getc ('z' :: ds) 0 = 'z' from rfl),
    if_neg ?hcond]
  case hni =>
    intro h
    rw [show "i".toList = ['i'] from rfl] at h
    exact absurd (List.cons.inj h).1 (by decide)
  case hnc =>
    intro h
    rw [show "c".toList = ['c'] from rfl] at h
    exact absurd (List.cons.inj h).1 (by decide)
  case hcond =>
    push_neg
    constructor
    · intro hgt
      cases ds with
      | nil => simp at hgt
      | cons ch rest =>
        have := hhead ch (by simp)
        simpa [getc] using this
    · simp only [List.length_cons]
      omega
  · simp only [List.drop_succ_cons, List.drop_zero, zIndexLoop_digits ds 0 hdig]
    rfl

/-- Witness for C8 at the suffix `10`. -/
theorem c8_z_suffix_witness :
    resolveName ('z' :: "10".toList) 3 ⟨[], .Extended⟩ =
      .ok (.variable (zIndexValue "10".toList), 3,
        { usedVariables := insertVar (zIndexValue "10".toList) [],
          supportedPrecision := Precision.Extended }) :=
  c8_z_suffix_amended.1 "10".toList 3 ⟨[], .Extended⟩ (by decide) (by decide) (by decide)

/-- Counterexample for C8 as stated: `"z1234567890"` carries a 10-digit
suffix with no leading zero, which the claim says is accepted, yet the
parse fails with `UnexpectedSymbol` and stores no result. -/
theorem c8_z_suffix_counterexample :
    (Parse "z1234567890".toList).2 = some (.UnexpectedSymbol, 0) ∧
    (Parse "z1234567890".toList).1.parsedFunc = none ∧
    (∀ ch ∈ "1234567890".toList, IsDigit ch = true) ∧
    "1234567890".toList.length = 10 ∧ ('1' : Char) ≠ '0' :=
  ⟨rfl, rfl, by decide, rfl, by decide⟩

/-- C9 (amended): under the complex instantiation `re` returns the
absolute value of the real component as a zero-imaginary value, and
`im` the absolute value of the imaginary component; under the real
instantiation, `re` returns its argument UNCHANGED — not its absolute
value as originally claimed — and `im` returns zero.  The
`CDouble.cabs` operation denotes the numeric absolute value. -/
theorem c9_re_im_amended :
    (∀ t : CComplex, mth.re t = (t.1.cabs, ⟨0, 1⟩) ∧ mth.im t = (t.2.cabs, ⟨0, 1⟩)) ∧
    (∀ a : CDouble, (a.cabs).toRat = |a.toRat|) ∧
    (∀ t : CDouble, mth.reReal t = t) ∧
    (∀ t : CDouble, mth.imReal t = ⟨0, 1⟩) := by
  refine ⟨fun t => ⟨rfl, rfl⟩, ?_, fun t => rfl, fun t => rfl⟩
  intro a
  unfold CDouble.cabs CDouble.toRat
  push_cast
  rw [abs_div]

/-- Witness for C9 at a concrete argument. -/
theorem c9_re_im_witness :
    mth.reReal ⟨-2, 1⟩ = (⟨-2, 1⟩ : CDouble) := c9_re_im_amended.2.2.1 ⟨-2, 1⟩

/-- Counterexample for C9 as stated: the real-instantiation `re`
applied to -2 returns -2, not the absolute value 2. -/
theorem c9_re_im_counterexample :
    mth.reReal ⟨-2, 1⟩ = (⟨-2, 1⟩ : CDouble) ∧
    CDouble.toRat ⟨-2, 1⟩ = -2 ∧ |(-2 : ℚ)| = 2 ∧ (-2 : ℚ) ≠ 2 := by
  refine ⟨rfl, ?_, ?_, ?_⟩ <;> norm_num [CDouble.toRat]

/-- C10 (amended): if `Parse` throws, the root accessor returns no node
and the stored cleaned input is empty, but — contrary to the original
claim — the used-variable set and the precision capability retain the
updates made by the partial scan before the error: failing to parse
`"z+"` leaves used-variable set {0}, and failing to parse `"sin(z)+"`
leaves the precision capability at `Single`. -/
theorem c10_failure_state_amended :
    (∀ input, (Parse input).2.isSome = true →
      (Parse input).1.parsedFunc = none ∧ (Parse input).1.inputFunc = []) ∧
    (Parse "z+".toList) =
      (⟨[], none, [0], .Extended⟩, some (.DanglingOperator, 1)) ∧
    (Parse "sin(z)+".toList).1.supportedPrecision = .Single ∧
    (Parse "sin(z)+".toList).1.usedVariables = [0] := by
  refine ⟨?_, by decide, rfl, rfl⟩
  intro input h
  simp only [Parse] at h ⊢
  cases hp : ParsePart (parseFuel (stripWS input).length) (stripWS input) 0
      (stripWS input).length ⟨[], .Extended⟩ with
  | ok r =>
    obtain ⟨elem, st⟩ := r
    rw [hp] at h
    simp at h
  | error r =>
    obtain ⟨e, st⟩ := r
    simp only [hp]
    exact ⟨trivial, trivial⟩

/-- Witness for C10 at the failing input `"z+"`. -/
theorem c10_failure_state_witness :
    (Parse "z+".toList).1.parsedFunc = none ∧ (Parse "z+".toList).1.inputFunc = [] :=
  c10_failure_state_amended.1 "z+".toList rfl

/-- Counterexample for C10 as stated: after the failed parse of `"z+"`
the used-variable set is {0}, not empty, so the parser is not in the
state of a freshly constructed one. -/
theorem c10_failure_state_counterexample :
    (Parse "z+".toList).2.isSome = true ∧
    (Parse "z+".toList).1.usedVariables = [0] ∧
    ([0] : List Int) ≠ [] ∧
    (Parse "z+".toList).1 ≠ freshParser :=
  ⟨rfl, rfl, by decide, by decide⟩
